import Mathlib

/-!
Verification of the license-header checker `.github/check-license.py`.

The script embeds a fixed license-header template, splits candidate files
into lines, and compares the leading lines (after a per-language offset)
against the template lines, each optionally preceded by one of a set of
accepted comment prefixes.  The module-level loop scans three source
directories, checks every discovered file, and exits non-zero when any
file fails.

Shallow embedding notes:
* Python strings are Lean `String`s; splitting a string on the newline
  character is modelled by `splitLines`, a structural recursion over the
  character list with the same semantics (an empty string yields one
  empty line, a trailing newline yields a trailing empty line).
* `lines[i + offset]` in Python raises `IndexError` when the index is out
  of range; the embedding returns `none` in that case (`Option Bool` is
  the result type of a check: `some b` is a normal boolean return, `none`
  is an uncaught exception).
* `open(filepath)` may raise `IOError`; a scanned file is therefore
  modelled as a `ScanFile` carrying an `Except Unit String` read result.
  The script has no try/except anywhere, so both kinds of exception
  propagate out of `check_file_header` and out of the module-level loop.
* `print` diagnostics are irrelevant to the verified properties and are
  not modelled.
-/

/-- The constant `license_header_template` of check-license.py (lines 23-37),
byte for byte. -/
def license_header_template : String :=
  "DNSKit\nCopyright (C) Ian Spence and other DNSKit Contributors\n\nThis program is free software: you can redistribute it and/or modify\nit under the terms of the GNU Lesser General Public License as published by\nthe Free Software Foundation, either version 3 of the License, or\n(at your option) any later version.\n\nThis program is distributed in the hope that it will be useful,\nbut WITHOUT ANY WARRANTY; without even the implied warranty of\nMERCHANTABILITY or FITNESS FOR A PARTICULAR PURPOSE.  See the\nGNU Lesser General Public License for more details.\n\nYou should have received a copy of the GNU Lesser General Public License\nalong with this program.  If not, see <https://www.gnu.org/licenses/>."

/-- Helper for `splitLines`: walks the character list, accumulating the
current line (in reverse). -/
def splitLinesAux : List Char → List Char → List String
  | [], acc => [String.mk acc.reverse]
  | c :: cs, acc =>
    if c = '\n' then String.mk acc.reverse :: splitLinesAux cs []
    else splitLinesAux cs (c :: acc)

/-- Python split on the newline character: the empty string gives one
empty line, a trailing newline gives a trailing empty line. -/
def splitLines (s : String) : List String := splitLinesAux s.data []

/-- The `header_lines` value computed at line 47 of check-license.py by
splitting the template on newlines. -/
def header_lines : List String := splitLines license_header_template

/-- The `while i < len(header_lines)-1` loop of check-license.py
(lines 53-63), iterating over the remaining header lines paired with the
running index `i`.  `none` models the `IndexError` raised by
`lines[i + offset]` when that index is out of range; `prefixes.any`
models the inner `for prefix in prefixes ... break` search. -/
def checkLines (lines : List String) (offset : Nat) (prefixes : List String) :
    Nat → List String → Option Bool
  | _, [] => some true
  | i, h :: rest =>
    match lines.get? (i + offset) with
    | none => none
    | some line =>
      if prefixes.any (fun p => line == p ++ h) then
        checkLines lines offset prefixes (i + 1) rest
      else
        some false

/-- `check_file_header` of check-license.py (lines 39-65), as a function of
the file's already-split lines (the read is modelled in `run_check`, the
split in `check_file_contents`).  The guard is line 49's
`len(lines) + offset < len(header_lines)`; the loop runs `i` from 0 while
`i < len(header_lines) - 1`, i.e. over `header_lines.take
(header_lines.length - 1)`. -/
def check_file_header (lines : List String) (offset : Nat)
    (prefixes : List String) : Option Bool :=
  if lines.length + offset < header_lines.length then
    some false
  else
    checkLines lines offset prefixes 0 (header_lines.take (header_lines.length - 1))

/-- `check_file_header` as a function of the raw file contents: line 44
of check-license.py splits the contents into lines on newlines. -/
def check_file_contents (contents : String) (offset : Nat)
    (prefixes : List String) : Option Bool :=
  check_file_header (splitLines contents) offset prefixes

/-- A candidate file as seen by the module-level scan loop: the outcome of
reading it (`Except.error` models an `IOError` from `open`/`read`), and
the offset and accepted-prefix list the loop passes for its language. -/
structure ScanFile where
  read : Except Unit String
  offset : Nat
  prefixes : List String

/-- One `check_file_header(filepath, offset, prefixes)` call as issued by
the scan loop (lines 79-87): reading the file happens first (lines 40-42);
an un-caught read exception propagates, giving `none`. -/
def run_check (f : ScanFile) : Option Bool :=
  match f.read with
  | Except.error _ => none
  | Except.ok contents => check_file_contents contents f.offset f.prefixes

/-- The module-level scan loop of check-license.py (lines 67-87) over an
already-discovered list of files, threading the `all_passed` flag.
`none` models an exception escaping the loop and killing the script. -/
def scan_loop : List ScanFile → Bool → Option Bool
  | [], all_passed => some all_passed
  | f :: rest, all_passed =>
    match run_check f with
    | none => none
    | some true => scan_loop rest all_passed
    | some false => scan_loop rest false

/-- The whole scan: `all_passed` starts `True` (line 67). -/
def scan_files (files : List ScanFile) : Option Bool := scan_loop files true

/-- The process exit status (lines 89-90 plus Python semantics): `exit(1)`
when `all_passed` is false, implicit exit 0 on normal completion, and
exit status 1 when an uncaught exception terminates the interpreter. -/
def exit_code (files : List ScanFile) : Nat :=
  match scan_files files with
  | some true => 0
  | _ => 1

/-- The template resolution step (line 46, `header = license_header_template`)
parameterized by an ambient date `_now`: the fixed-template strategy is a
constant and never consults the clock (the script imports `datetime` but
never calls it). -/
def resolve_header (_now : Nat) : String := license_header_template

/-- The split header lines as resolved at ambient date `now`. -/
def header_lines_at (now : Nat) : List String := splitLines (resolve_header now)

/-- `check_file_header` as run at ambient date `now`. -/
def check_file_header_at (now : Nat) (lines : List String) (offset : Nat)
    (prefixes : List String) : Option Bool :=
  if lines.length + offset < (header_lines_at now).length then
    some false
  else
    checkLines lines offset prefixes 0
      ((header_lines_at now).take ((header_lines_at now).length - 1))

/-- `run_check` as run at ambient date `now`. -/
def run_check_at (now : Nat) (f : ScanFile) : Option Bool :=
  match f.read with
  | Except.error _ => none
  | Except.ok contents =>
    check_file_header_at now (splitLines contents) f.offset f.prefixes

/-- The scan loop as run at ambient date `now`. -/
def scan_loop_at (now : Nat) : List ScanFile → Bool → Option Bool
  | [], all_passed => some all_passed
  | f :: rest, all_passed =>
    match run_check_at now f with
    | none => none
    | some true => scan_loop_at now rest all_passed
    | some false => scan_loop_at now rest false

/-- The whole scan as run at ambient date `now`. -/
def scan_files_at (now : Nat) (files : List ScanFile) : Option Bool :=
  scan_loop_at now files true

/-- File line `i + offset` exists and equals header line `i` preceded by
some accepted prefix — the per-line success condition of lines 55-59. -/
def line_matches (lines : List String) (offset : Nat) (prefixes : List String)
    (i : Nat) : Prop :=
  ∃ p ∈ prefixes, lines.get? (i + offset) = some (p ++ header_lines.getD i "")

instance (lines : List String) (offset : Nat) (prefixes : List String)
    (i : Nat) : Decidable (line_matches lines offset prefixes i) :=
  List.decidableBEx _ prefixes

/-- A 14-line file for the go/python rule (offset 1): an interpreter
directive followed by header lines 0 to 12.  It passes the length guard
(14 + 1 is not below 15) yet the matching loop runs its index up to 13
and asks for file line 14, which does not exist. -/
def crash_demo : List String := "#!/usr/bin/env python3" :: header_lines.take 13

/-- A 15-line file whose first 14 lines are header lines 0 to 13 and whose
final line differs from the final header line. -/
def c1_demo : List String := header_lines.take 14 ++ ["NOT THE REAL LAST LINE"]

/-- A shebang line followed by the full header, every line comment-marked. -/
def c5_demo : List String := "#!/usr/bin/env swift" :: header_lines.map (fun h => "// " ++ h)

/-- A 15-line file whose first line already fails the header comparison. -/
def c7_demo : List String := "// WRONG FIRST LINE" :: List.replicate 14 "a"

/-- Same first line as `c7_demo`, arbitrary different content afterwards. -/
def c7_demo' : List String := "// WRONG FIRST LINE" :: List.replicate 14 "b"

/-- A scanned file whose read raises (an unreadable candidate file). -/
def read_error_file : ScanFile := ⟨Except.error (), 0, ["// ", "//"]⟩

/-- A scanned file whose contents are exactly the header template, checked
with offset 0 and the empty prefix: it passes. -/
def passing_file : ScanFile := ⟨Except.ok license_header_template, 0, [""]⟩


/-! ## General lemmas about the matching loop and the scan loop -/

lemma take_get?_eq {α : Type _} {n j : Nat} (l : List α) (hj : j < n) :
    (l.take n).get? j = l.get? j := by
  rw [List.get?_eq_getElem?, List.get?_eq_getElem?, List.getElem?_take, if_pos hj]

lemma get?_eq_some_getD {α : Type _} {l : List α} {j : Nat} (d : α)
    (hj : j < l.length) : l.get? j = some (l.getD j d) := by
  rw [List.get?_eq_getElem?, List.getElem?_eq_getElem hj, List.getD_eq_getElem?_getD,
    List.getElem?_eq_getElem hj]
  rfl

lemma take_get?_some {α : Type _} {l : List α} {n j : Nat} {a : α}
    (hj : (l.take n).get? j = some a) : j < n ∧ l.get? j = some a := by
  have h1 : j < (l.take n).length := (List.get?_eq_some.mp hj).1
  rw [List.length_take] at h1
  have hjn : j < n := lt_of_lt_of_le h1 (min_le_left _ _)
  exact ⟨hjn, by rw [← take_get?_eq l hjn]; exact hj⟩

lemma any_congr_perm {α : Type _} (f : α → Bool) {p q : List α} (h : p.Perm q) :
    p.any f = q.any f := by
  rw [Bool.eq_iff_iff, List.any_eq_true, List.any_eq_true]
  exact ⟨fun ⟨x, hx, hfx⟩ => ⟨x, h.mem_iff.mp hx, hfx⟩,
    fun ⟨x, hx, hfx⟩ => ⟨x, h.mem_iff.mpr hx, hfx⟩⟩

lemma checkLines_eq_true (lines : List String) (offset : Nat) (prefixes : List String) :
    ∀ (hs : List String) (s : Nat),
      (∀ j h, hs.get? j = some h →
        ∃ p ∈ prefixes, lines.get? (s + j + offset) = some (p ++ h)) →
      checkLines lines offset prefixes s hs = some true := by
  intro hs
  induction hs with
  | nil => intro s _; rfl
  | cons h rest ih =>
    intro s hmatch
    obtain ⟨p, hp, hget⟩ := hmatch 0 h rfl
    rw [Nat.add_zero] at hget
    have hany : (prefixes.any fun q => ((p ++ h) == q ++ h)) = true :=
      List.any_eq_true.mpr ⟨p, hp, beq_self_eq_true _⟩
    simp only [checkLines, hget]
    rw [hany]
    refine ih (s + 1) ?_
    intro j h' hjh
    obtain ⟨q, hq, hg⟩ := hmatch (j + 1) h' hjh
    have hg' : lines.get? (s + 1 + j + offset) = some (q ++ h') := by
      have harith : s + 1 + j + offset = s + (j + 1) + offset := by omega
      rw [harith]
      exact hg
    exact ⟨q, hq, hg'⟩

lemma checkLines_eq_false (lines : List String) (offset : Nat) (prefixes : List String) :
    ∀ (hs : List String) (s j0 : Nat) (h0 line : String),
      hs.get? j0 = some h0 →
      (∀ j h, j < j0 → hs.get? j = some h →
        ∃ p ∈ prefixes, lines.get? (s + j + offset) = some (p ++ h)) →
      lines.get? (s + j0 + offset) = some line →
      (∀ p ∈ prefixes, line ≠ p ++ h0) →
      checkLines lines offset prefixes s hs = some false := by
  intro hs
  induction hs with
  | nil => intro s j0 h0 line hj0 _ _ _; simp at hj0
  | cons h rest ih =>
    intro s j0 h0 line hj0 hbefore hline hmis
    cases j0 with
    | zero =>
      have hh : h = h0 := by simpa using hj0
      rw [Nat.add_zero] at hline
      have hany : (prefixes.any fun q => (line == q ++ h)) = false := by
        apply List.any_eq_false.mpr
        intro q hq hbq
        exact hmis q hq (by rw [← hh]; exact beq_iff_eq.mp hbq)
      simp only [checkLines, hline]
      rw [hany]
      rfl
    | succ j0' =>
      obtain ⟨p, hp, hget⟩ := hbefore 0 h (Nat.succ_pos _) rfl
      rw [Nat.add_zero] at hget
      have hany : (prefixes.any fun q => ((p ++ h) == q ++ h)) = true :=
        List.any_eq_true.mpr ⟨p, hp, beq_self_eq_true _⟩
      simp only [checkLines, hget]
      rw [hany]
      refine ih (s + 1) j0' h0 line hj0 ?_ ?_ hmis
      · intro j h' hjlt hjh
        obtain ⟨q, hq, hg⟩ := hbefore (j + 1) h' (Nat.succ_lt_succ hjlt) hjh
        have hg' : lines.get? (s + 1 + j + offset) = some (q ++ h') := by
          have harith : s + 1 + j + offset = s + (j + 1) + offset := by omega
          rw [harith]
          exact hg
        exact ⟨q, hq, hg'⟩
      · have harith : s + 1 + j0' + offset = s + (j0' + 1) + offset := by omega
        rw [harith]
        exact hline

lemma checkLines_perm_eq (lines : List String) (offset : Nat) {p q : List String}
    (hperm : p.Perm q) :
    ∀ (hs : List String) (s : Nat),
      checkLines lines offset p s hs = checkLines lines offset q s hs := by
  intro hs
  induction hs with
  | nil => intro s; rfl
  | cons h rest ih =>
    intro s
    cases hget : lines.get? (s + offset) with
    | none => simp only [checkLines, hget]
    | some line =>
      simp only [checkLines, hget]
      rw [any_congr_perm (fun r => line == r ++ h) hperm]
      cases hany : q.any (fun r => line == r ++ h) with
      | false => rfl
      | true => exact ih (s + 1)

lemma scan_loop_true_iff :
    ∀ (files : List ScanFile) (acc : Bool),
      scan_loop files acc = some true ↔
        (acc = true ∧ ∀ f ∈ files, run_check f = some true) := by
  intro files
  induction files with
  | nil =>
    intro acc
    simp [scan_loop]
  | cons f rest ih =>
    intro acc
    cases hrc : run_check f with
    | none =>
      simp only [scan_loop, hrc]
      constructor
      · intro h
        cases h
      · rintro ⟨-, hall⟩
        have hf := hall f (List.mem_cons_self f rest)
        rw [hrc] at hf
        cases hf
    | some b =>
      cases b with
      | false =>
        simp only [scan_loop, hrc]
        rw [ih false]
        constructor
        · rintro ⟨h, -⟩
          cases h
        · rintro ⟨-, hall⟩
          have hf := hall f (List.mem_cons_self f rest)
          rw [hrc] at hf
          cases hf
      | true =>
        simp only [scan_loop, hrc]
        rw [ih acc]
        constructor
        · rintro ⟨ha, hall⟩
          refine ⟨ha, ?_⟩
          intro g hg
          rcases List.mem_cons.mp hg with h | h
          · rw [h]
            exact hrc
          · exact hall g h
        · rintro ⟨ha, hall⟩
          exact ⟨ha, fun g hg => hall g (List.mem_cons_of_mem f hg)⟩

lemma scan_loop_none_of_abort (f : ScanFile) (hf : run_check f = none) :
    ∀ (pre post : List ScanFile) (acc : Bool),
      scan_loop (pre ++ f :: post) acc = none := by
  intro pre
  induction pre with
  | nil =>
    intro post acc
    simp only [List.nil_append, scan_loop, hf]
  | cons g t ih =>
    intro post acc
    rw [List.cons_append]
    cases hrc : run_check g with
    | none => simp only [scan_loop, hrc]
    | some b =>
      cases b with
      | true =>
        simp only [scan_loop, hrc]
        exact ih post acc
      | false =>
        simp only [scan_loop, hrc]
        exact ih post false

lemma run_check_at_eq (now : Nat) (f : ScanFile) : run_check_at now f = run_check f := by
  rcases f with ⟨r, o, ps⟩
  cases r with
  | error e => rfl
  | ok c => rfl

lemma scan_loop_at_eq (now : Nat) :
    ∀ (files : List ScanFile) (acc : Bool),
      scan_loop_at now files acc = scan_loop files acc := by
  intro files
  induction files with
  | nil => intro acc; rfl
  | cons f rest ih =>
    intro acc
    cases hrc : run_check f with
    | none =>
      simp only [scan_loop_at, scan_loop, run_check_at_eq, hrc]
    | some b =>
      cases b with
      | true =>
        simp only [scan_loop_at, scan_loop, run_check_at_eq, hrc]
        exact ih acc
      | false =>
        simp only [scan_loop_at, scan_loop, run_check_at_eq, hrc]
        exact ih false

lemma line_matches_take (lines : List String) (offset : Nat) (prefixes : List String)
    {j : Nat} {h : String}
    (hm : line_matches lines offset prefixes j)
    (hjh : (header_lines.take (header_lines.length - 1)).get? j = some h) :
    ∃ p ∈ prefixes, lines.get? (0 + j + offset) = some (p ++ h) := by
  obtain ⟨hjn, hget⟩ := take_get?_some hjh
  have hjL : j < header_lines.length := lt_of_lt_of_le hjn (Nat.sub_le _ _)
  have h1 : header_lines.get? j = some (header_lines.getD j "") := get?_eq_some_getD "" hjL
  rw [h1] at hget
  have h2 : header_lines.getD j "" = h := Option.some.inj hget
  obtain ⟨p, hp, hg⟩ := hm
  rw [h2] at hg
  rw [Nat.zero_add]
  exact ⟨p, hp, hg⟩

/-! ## The claims -/

/-- Claim C1: check compares only header line indices 0 through
header-length minus 2 against the file; the final header line is never
verified, so a file that has a line at the final header position but
matches only the earlier header lines is still reported as passing. -/
theorem c1_final_header_line_never_checked (lines : List String) (offset : Nat)
    (prefixes : List String)
    (hlast : header_lines.length - 1 + offset < lines.length)
    (hall : ∀ i, i < header_lines.length - 1 → line_matches lines offset prefixes i) :
    check_file_header lines offset prefixes = some true := by
  have hL : 1 ≤ header_lines.length := by decide
  have hguard : ¬ (lines.length + offset < header_lines.length) := by omega
  unfold check_file_header
  rw [if_neg hguard]
  apply checkLines_eq_true
  intro j h hjh
  obtain ⟨hjn, -⟩ := take_get?_some hjh
  exact line_matches_take lines offset prefixes (hall j hjn) hjh

/-- Claim C1 witness: a concrete 15-line file matching header lines 0-13
whose 15th line is garbage still passes. -/
theorem c1_witness : check_file_header c1_demo 0 [""] = some true :=
  c1_final_header_line_never_checked c1_demo 0 [""] (by decide) (by decide)

/-- Claim C5: a file whose lines, starting at the configured offset,
equal the expected header lines each preceded by some accepted prefix
(possibly a different prefix per line) passes the check. -/
theorem c5_exact_header_passes (lines : List String) (offset : Nat)
    (prefixes : List String)
    (hall : ∀ i, i < header_lines.length → line_matches lines offset prefixes i) :
    check_file_header lines offset prefixes = some true := by
  have hL : 1 ≤ header_lines.length := by decide
  obtain ⟨p, hp, hget⟩ := hall (header_lines.length - 1) (by omega)
  have hbound := (List.get?_eq_some.mp hget).1
  have hguard : ¬ (lines.length + offset < header_lines.length) := by omega
  unfold check_file_header
  rw [if_neg hguard]
  apply checkLines_eq_true
  intro j h hjh
  obtain ⟨hjn, -⟩ := take_get?_some hjh
  exact line_matches_take lines offset prefixes (hall j (by omega)) hjh

/-- Claim C5 witness: a shebang line followed by all 15 header lines with a
comment prefix, checked at offset 1, passes. -/
theorem c5_witness : check_file_header c5_demo 1 ["// ", "//"] = some true :=
  c5_exact_header_passes c5_demo 1 ["// ", "//"] (by decide)

/-- Claim C6: when the number of file lines plus the offset is strictly
below the number of header lines, the check fails immediately through the
length guard of line 49, for arbitrary line contents. -/
theorem c6_too_short_fails_immediately (lines : List String) (offset : Nat)
    (prefixes : List String)
    (hshort : lines.length + offset < header_lines.length) :
    check_file_header lines offset prefixes = some false := by
  unfold check_file_header
  rw [if_pos hshort]

/-- Claim C6 witness: the empty file (one empty line after splitting)
fails immediately. -/
theorem c6_witness : check_file_header [""] 0 ["// ", "//"] = some false :=
  c6_too_short_fails_immediately [""] 0 ["// ", "//"] (by decide)

/-- Claim C7: if the compared header line index `i` is the first failing
one (every earlier index matches, index `i` is in range but matches under
no accepted prefix), the check fails; and the check of any same-length
file agreeing on lines 0 through `i + offset` fails identically, so no
file line after the first failing one influences the outcome. -/
theorem c7_first_mismatch_short_circuits (lines lines' : List String) (offset : Nat)
    (prefixes : List String) (i : Nat)
    (hi : i < header_lines.length - 1)
    (hbefore : ∀ j, j < i → line_matches lines offset prefixes j)
    (hin : i + offset < lines.length)
    (hmis : ∀ p ∈ prefixes, lines.getD (i + offset) "" ≠ p ++ header_lines.getD i "")
    (hlen : lines'.length = lines.length)
    (hagree : ∀ k, k ≤ i + offset → lines'.get? k = lines.get? k) :
    check_file_header lines offset prefixes = some false ∧
      check_file_header lines' offset prefixes = some false := by
  have hiL : i < header_lines.length := lt_of_lt_of_le hi (Nat.sub_le _ _)
  by_cases hguard : lines.length + offset < header_lines.length
  · have hguard' : lines'.length + offset < header_lines.length := by omega
    constructor
    · unfold check_file_header
      rw [if_pos hguard]
    · unfold check_file_header
      rw [if_pos hguard']
  · have hguard' : ¬ (lines'.length + offset < header_lines.length) := by omega
    have hin' : i + offset < lines'.length := by omega
    have htake : (header_lines.take (header_lines.length - 1)).get? i =
        some (header_lines.getD i "") := by
      rw [take_get?_eq _ hi]
      exact get?_eq_some_getD "" hiL
    have hgetD' : lines'.getD (i + offset) "" = lines.getD (i + offset) "" := by
      rw [List.getD_eq_getElem?_getD, List.getD_eq_getElem?_getD,
        ← List.get?_eq_getElem?, ← List.get?_eq_getElem?, hagree (i + offset) le_rfl]
    constructor
    · unfold check_file_header
      rw [if_neg hguard]
      apply checkLines_eq_false lines offset prefixes _ 0 i (header_lines.getD i "")
        (lines.getD (i + offset) "") htake
      · intro j h hji hjh
        exact line_matches_take lines offset prefixes (hbefore j hji) hjh
      · rw [Nat.zero_add]
        exact get?_eq_some_getD "" hin
      · exact hmis
    · unfold check_file_header
      rw [if_neg hguard']
      apply checkLines_eq_false lines' offset prefixes _ 0 i (header_lines.getD i "")
        (lines'.getD (i + offset) "") htake
      · intro j h hji hjh
        have hm : line_matches lines' offset prefixes j := by
          obtain ⟨p, hp, hg⟩ := hbefore j hji
          refine ⟨p, hp, ?_⟩
          rw [hagree (j + offset) (by omega)]
          exact hg
        exact line_matches_take lines' offset prefixes hm hjh
      · rw [Nat.zero_add]
        exact get?_eq_some_getD "" hin'
      · intro p hp
        rw [hgetD']
        exact hmis p hp

/-- Claim C7 witness: two 15-line files sharing a first line that matches
no accepted prefix, differing in everything after it, both fail. -/
theorem c7_witness :
    check_file_header c7_demo 0 ["// ", "//"] = some false ∧
      check_file_header c7_demo' 0 ["// ", "//"] = some false :=
  c7_first_mismatch_short_circuits c7_demo c7_demo' 0 ["// ", "//"] 0
    (by decide) (by decide) (by decide) (by decide) (by decide) (by decide)

/-- Claim C8: the pass/fail outcome of the check is invariant under
permutation of the accepted-prefix list: the inner loop succeeds exactly
when some member matches, independent of order. -/
theorem c8_prefix_set_order_irrelevant (lines : List String) (offset : Nat)
    (p q : List String) (hperm : p.Perm q) :
    check_file_header lines offset p = check_file_header lines offset q := by
  unfold check_file_header
  by_cases hguard : lines.length + offset < header_lines.length
  · rw [if_pos hguard, if_pos hguard]
  · rw [if_neg hguard, if_neg hguard]
    exact checkLines_perm_eq lines offset hperm _ 0

/-- Claim C8 witness: the two orders of the swift prefix pair give the
same result on a concrete file. -/
theorem c8_witness :
    check_file_header header_lines 0 ["//", "// "] =
      check_file_header header_lines 0 ["// ", "//"] :=
  c8_prefix_set_order_irrelevant header_lines 0 ["//", "// "] ["// ", "//"]
    (List.Perm.swap "// " "//" [])

/-- Claim C9: with the fixed-template strategy the check and the whole
scan are pure functions of the file contents, offsets and prefix lists:
run at any ambient date `now`, they coincide with the date-free
functions, so two runs on the same file tree agree, whatever the dates. -/
theorem c9_fixed_template_deterministic (now : Nat) (lines : List String)
    (offset : Nat) (prefixes : List String) (files : List ScanFile) :
    check_file_header_at now lines offset prefixes =
        check_file_header lines offset prefixes ∧
      scan_files_at now files = scan_files files :=
  ⟨rfl, scan_loop_at_eq now files true⟩

/-- Claim C10: the process exits with status zero exactly when every
scanned file's check returned success; any failure (or any uncaught
exception) makes the exit status 1. -/
theorem c10_exit_zero_iff_all_pass (files : List ScanFile) :
    exit_code files = 0 ↔ ∀ f ∈ files, run_check f = some true := by
  have key := scan_loop_true_iff files true
  simp only [true_and] at key
  rw [← key]
  unfold exit_code scan_files
  cases h : scan_loop files true with
  | none => exact iff_of_false (by decide) (by decide)
  | some b =>
    cases b with
    | false => exact iff_of_false (by decide) (by decide)
    | true => exact iff_of_true rfl rfl

/-- Claim C2 counterexample: a scan over an unreadable file followed by a
file that would pass does not record a per-file failure and continue (its
result would then be `some false`); the uncaught read exception aborts
the whole run (`none`), although the remaining file alone passes. -/
theorem c2_counterexample :
    scan_files [read_error_file, passing_file] = none ∧
      scan_files [read_error_file, passing_file] ≠ some false ∧
      run_check passing_file = some true := by
  refine ⟨rfl, by decide, by decide⟩

/-- Claim C2 as amended: if any candidate file cannot be opened or read,
the exception is uncaught, the whole run aborts at that file with no
per-file failure recorded, the remaining files are not checked, and the
process exits non-zero. -/
theorem c2_read_error_aborts_scan (pre post : List ScanFile) (f : ScanFile)
    (hf : f.read = Except.error ()) :
    scan_files (pre ++ f :: post) = none ∧ exit_code (pre ++ f :: post) = 1 := by
  have hrc : run_check f = none := by
    unfold run_check
    rw [hf]
  have h := scan_loop_none_of_abort f hrc pre post true
  refine ⟨h, ?_⟩
  unfold exit_code
  have hs : scan_files (pre ++ f :: post) = none := h
  rw [hs]

/-- Claim C2 amended witness: a passing file, then an unreadable file,
then another passing file: the run aborts and exits 1. -/
theorem c2_witness :
    scan_files ([passing_file] ++ read_error_file :: [passing_file]) = none ∧
      exit_code ([passing_file] ++ read_error_file :: [passing_file]) = 1 :=
  c2_read_error_aborts_scan [passing_file] [passing_file] read_error_file rfl

/-- Claim C3: the code's length guard is `len(lines) + offset < 15`, not
the claimed `len(lines) < offset + 15 - 1`: `crash_demo` has 14 lines,
fewer than offset + header-length - 1 = 15, so the claim says it fails
via the length check alone; but the guard passes, the loop inspects the
line contents, and the check ends in an out-of-range access rather than
a length-guard failure. -/
theorem c3_short_file_guard_gap :
    crash_demo.length < 1 + header_lines.length - 1 ∧
      ¬ (crash_demo.length + 1 < header_lines.length) ∧
      check_file_header crash_demo 1 [""] = none := by
  refine ⟨by decide, by decide, by decide⟩

/-- Claim C4: the comparison loop can read past the end of the file's
line list: `crash_demo` (14 lines, offset 1) passes the length guard,
its lines 1 through 13 match header lines 0 through 12, and the loop then
asks for line index 14, raising an out-of-range error (`none`) instead of
returning a boolean. -/
theorem c4_length_guard_allows_index_error :
    ¬ (crash_demo.length + 1 < header_lines.length) ∧
      check_file_header crash_demo 1 [""] = none := by
  refine ⟨by decide, by decide⟩
